import Mathlib

/-!
The Facebook OAuth2.0 handler of dmv (`facebook.go`).

A shallow embedding of `AuthFacebook` and of the handler it returns.

* Go values are Lean structures; a Go `error` is its message text.
* The handler's effects (a redirect written to the response, the outbound
  calls, the value mapped into the martini context) are recorded as a trace of
  `Event`s, in execution order.
* Everything the handler calls but does not define (`makeTransport`,
  `url.Parse`, the OAuth2.0 transport, the HTTP client, `ioutil.ReadAll`,
  `json.Unmarshal`) is a field of `World`; theorems quantify over every world,
  that is over every possible outcome of those calls.
-/

namespace Dmv

/-! ## Data model -/

/-- A Go `error`, identified with its message. -/
abbrev GoError := String

/-- The profile endpoint, `fbProfileURL` (facebook.go:13). -/
def fbProfileURL : String := "https://graph.facebook.com/me"

/-- The status code `http.StatusFound`. -/
def StatusFound : Nat := 302

/-- The struct `FacebookProfile` (facebook.go:26-36); the zero value is `{}`. -/
structure FacebookProfile where
  ID : String := ""
  Username : String := ""
  Name : String := ""
  LastName : String := ""
  FirstName : String := ""
  MiddleName : String := ""
  Gender : String := ""
  Link : String := ""
  Email : String := ""
deriving DecidableEq, Repr

/-- The struct `Facebook` (facebook.go:18-23); the zero value `Facebook{}` is `{}`. -/
structure Facebook where
  Errors : List GoError := []
  AccessToken : String := ""
  RefreshToken : String := ""
  Profile : FacebookProfile := {}
deriving DecidableEq, Repr

/-- Modelled from the spec: the `OAuth2Options` struct, declared in a file of the
package that is not part of the sources at hand.  Section 3 of the spec lists
its contents (client identifier, client secret, redirect URL, provider
authorization endpoint URL, provider token endpoint URL); the field names are
the ones `facebook.go` uses (lines 56-60 and 83-84). -/
structure OAuth2Options where
  ClientID : String := ""
  ClientSecret : String := ""
  RedirectURL : String := ""
  AuthURL : String := ""
  TokenURL : String := ""
deriving DecidableEq, Repr

/-- The part of `url.URL` that the handler can observe. -/
structure URL where
  Scheme : String := ""
  Host : String := ""
  Path : String := ""
  RawQuery : String := ""
  Fragment : String := ""
deriving DecidableEq, Repr

/-- The part of `*http.Request` the handler reads: `r.URL` and `r.FormValue`. -/
structure Request where
  URL : URL
  FormValue : String → String

/-- The token returned by `transport.Exchange`: the two fields the handler reads. -/
structure Token where
  AccessToken : String := ""
  RefreshToken : String := ""
deriving DecidableEq, Repr

/-- Observable actions of one handler invocation. -/
inductive Event where
  /-- Models `http.Redirect(w, r, url, status)`. -/
  | redirect (url : String) (status : Nat)
  /-- Models `transport.Exchange(code)`. -/
  | exchange (code : String)
  /-- Models `transport.Client().Get(url)`. -/
  | get (url : String)
  /-- Models `ioutil.ReadAll(resp.Body)`. -/
  | readAll
  /-- Models `json.Unmarshal(data, profile)`. -/
  | unmarshal (data : String)
  /-- Models `resp.Body.Close()`. -/
  | close
  /-- Models `c.Map(fb)`; `fb` is a pointer, so downstream handlers see the value
  `*fb` has when the handler returns. -/
  | map (fb : Facebook)
deriving DecidableEq, Repr

/-- The collaborators of the handler.  `T` is the type of `*oauth.Transport`
values, `R` the type of `*http.Response` values.  A response body is a
`String` of bytes. -/
structure World (T R : Type) where
  /-- Stands for `makeTransport(opts, r)`; defined elsewhere in the package. -/
  makeTransport : OAuth2Options → Request → T
  /-- Stands for `transport.Config.RedirectURL`. -/
  configRedirectURL : T → String
  /-- Stands for `transport.Config.AuthCodeURL(state)`. -/
  authCodeURL : T → String → String
  /-- Stands for `url.Parse`. -/
  urlParse : String → Except GoError URL
  /-- Stands for `transport.Exchange(code)`. -/
  exchange : T → String → Except GoError Token
  /-- Stands for `transport.Client().Get(url)`, issued after an exchange that returned
  the given token. -/
  clientGet : T → Token → String → Except GoError R
  /-- Stands for `ioutil.ReadAll(resp.Body)`: the bytes read and the error, if any. -/
  readAll : R → String × Option GoError
  /-- Stands for `json.Unmarshal(data, profile)`: the contents of `*profile` afterwards,
  which may have been written to even when an error is returned, and the error. -/
  jsonUnmarshal : String → FacebookProfile → FacebookProfile × Option GoError

/-! ## `AuthFacebook` -/

/-- The assignments `AuthFacebook` makes through the `opts` pointer before it
returns the handler (facebook.go:83-84): the contents of `*opts` afterwards. -/
def AuthFacebook (opts : OAuth2Options) : OAuth2Options :=
  { opts with
    AuthURL := "https://www.facebook.com/dialog/oauth"
    TokenURL := "https://graph.facebook.com/oauth/access_token" }

section Handler

variable {T R : Type}

/-- The callback path of facebook.go:88-91: the path of the parsed redirect
URL, or `""` when parsing fails. -/
def cbPath (W : World T R) (transport : T) : String :=
  match W.urlParse (W.configRedirectURL transport) with
  | .ok u => u.Path
  | .error _ => ""

/-- Lines 112-122, executed between `defer resp.Body.Close()` and the deferred
close itself: the new contents of `*fb` and the events. -/
def readProfile (W : World T R) (resp : R) (fb : Facebook) : Facebook × List Event :=
  let profile : FacebookProfile := {}
  match W.readAll resp with
  | (_, some err) => ({ fb with Errors := fb.Errors ++ [err] }, [Event.readAll])
  | (data, none) =>
    match W.jsonUnmarshal data profile with
    | (_, some err) =>
      ({ fb with Errors := fb.Errors ++ [err] }, [Event.readAll, Event.unmarshal data])
    | (decoded, none) =>
      ({ fb with Profile := decoded }, [Event.readAll, Event.unmarshal data])

/-- Lines 98-123, executed after `defer c.Map(fb)`: the final contents of `*fb`
and the events, the deferred `resp.Body.Close()` included. -/
def callback (W : World T R) (transport : T) (r : Request) (fb : Facebook) :
    Facebook × List Event :=
  let code := r.FormValue "code"
  match W.exchange transport code with
  | .error err => ({ fb with Errors := fb.Errors ++ [err] }, [Event.exchange code])
  | .ok tk =>
    let fb := { fb with AccessToken := tk.AccessToken, RefreshToken := tk.RefreshToken }
    match W.clientGet transport tk fbProfileURL with
    | .error err =>
      ({ fb with Errors := fb.Errors ++ [err] }, [Event.exchange code, Event.get fbProfileURL])
    | .ok resp =>
      let out := readProfile W resp fb
      (out.1, [Event.exchange code, Event.get fbProfileURL] ++ out.2 ++ [Event.close])

/-- The handler returned by `AuthFacebook(opts)` (facebook.go:86-124), run on
request `r`.  The closure holds the pointer `opts`, so `opts` here is the
contents of `*opts` at the time of the request.  The result is the trace of
events; the deferred `c.Map(fb)` runs last. -/
def handler (W : World T R) (opts : OAuth2Options) (r : Request) : List Event :=
  let transport := W.makeTransport opts r
  if r.URL.Path ≠ cbPath W transport then
    [Event.redirect (W.authCodeURL transport "") StatusFound]
  else
    let out := callback W transport r {}
    out.2 ++ [Event.map out.1]

end Handler

/-! ## Observations on traces -/

/-- The `Facebook` values mapped into the context, in order. -/
def mapped : List Event → List Facebook
  | [] => []
  | Event.map fb :: es => fb :: mapped es
  | _ :: es => mapped es

/-- The redirect responses written, in order. -/
def redirects : List Event → List (String × Nat)
  | [] => []
  | Event.redirect u s :: es => (u, s) :: redirects es
  | _ :: es => redirects es

/-- Number of code exchanges performed. -/
def exchangeCount : List Event → Nat
  | [] => 0
  | Event.exchange _ :: es => exchangeCount es + 1
  | _ :: es => exchangeCount es

/-- Number of profile GETs performed. -/
def getCount : List Event → Nat
  | [] => 0
  | Event.get _ :: es => getCount es + 1
  | _ :: es => getCount es

/-- Number of JSON decodes performed. -/
def unmarshalCount : List Event → Nat
  | [] => 0
  | Event.unmarshal _ :: es => unmarshalCount es + 1
  | _ :: es => unmarshalCount es

/-! ## Decoding a JSON document into `FacebookProfile`

`json.Unmarshal` belongs to the Go standard library.  What `facebook.go`
contributes is the target type: nine string fields with their `json:"..."`
tags.  The model below is the library's rule for storing a JSON value into
that struct, applied to an already scanned document.
-/

/-- A scanned JSON document. -/
inductive JSONValue where
  | null
  | bool (b : Bool)
  | number (literal : String)
  | str (s : String)
  | arr (items : List JSONValue)
  | obj (members : List (String × JSONValue))

/-- The name `encoding/json` gives to the kind of a value in its type errors. -/
def JSONValue.kind : JSONValue → String
  | .null => "null"
  | .bool _ => "bool"
  | .number _ => "number"
  | .str _ => "string"
  | .arr _ => "array"
  | .obj _ => "object"

/-- The fields of `FacebookProfile`, in declaration order (facebook.go:27-35). -/
inductive Field where
  | ID | Username | Name | LastName | FirstName | MiddleName | Gender | Link | Email
deriving DecidableEq, Repr

/-- The `json:"..."` tag of each field (facebook.go:27-35). -/
def Field.tag : Field → String
  | .ID => "id"
  | .Username => "username"
  | .Name => "name"
  | .LastName => "last_name"
  | .FirstName => "first_name"
  | .MiddleName => "middle_name"
  | .Gender => "gender"
  | .Link => "link"
  | .Email => "email"

/-- All fields, in declaration order. -/
def Field.all : List Field :=
  [.ID, .Username, .Name, .LastName, .FirstName, .MiddleName, .Gender, .Link, .Email]

/-- Reading a field. -/
def FacebookProfile.get (p : FacebookProfile) : Field → String
  | .ID => p.ID
  | .Username => p.Username
  | .Name => p.Name
  | .LastName => p.LastName
  | .FirstName => p.FirstName
  | .MiddleName => p.MiddleName
  | .Gender => p.Gender
  | .Link => p.Link
  | .Email => p.Email

/-- Assigning a field. -/
def FacebookProfile.set (p : FacebookProfile) (f : Field) (v : String) : FacebookProfile :=
  match f with
  | .ID => { p with ID := v }
  | .Username => { p with Username := v }
  | .Name => { p with Name := v }
  | .LastName => { p with LastName := v }
  | .FirstName => { p with FirstName := v }
  | .MiddleName => { p with MiddleName := v }
  | .Gender => { p with Gender := v }
  | .Link => { p with Link := v }
  | .Email => { p with Email := v }

/-- Case folding of one character as `encoding/json` compares object keys with
field names: ASCII letters ignore case, and the Kelvin sign and the long s
fold to `K` and `S`. -/
def foldChar (c : Char) : Char :=
  if c = Char.ofNat 0x212A then 'K'
  else if c = Char.ofNat 0x17F then 'S'
  else c.toUpper

/-- Case folding of a key. -/
def foldName (s : String) : String := String.mk (s.data.map foldChar)

/-- The field an object key is stored into: the field whose tag equals the
key, otherwise the first field whose tag equals it up to case folding,
otherwise none (the member is skipped). -/
def findField (key : String) : Option Field :=
  match Field.all.find? (fun f => f.tag = key) with
  | some f => some f
  | none => Field.all.find? (fun f => foldName f.tag = foldName key)

/-- The text of an `UnmarshalTypeError`. -/
def typeError (kind goType : String) : GoError :=
  "json: cannot unmarshal " ++ kind ++ " into Go value of type " ++ goType

/-- The decoder keeps the first type error and goes on. -/
def saveError (saved err : Option GoError) : Option GoError :=
  match saved with
  | some e => some e
  | none => err

/-- Storing a JSON value into a string field: a string is assigned, `null`
leaves the field as it is, anything else is a type error. -/
def storeString (p : FacebookProfile) (f : Field) : JSONValue → FacebookProfile × Option GoError
  | .str s => (p.set f s, none)
  | .null => (p, none)
  | v => (p, some (typeError v.kind "string"))

/-- Storing the members of an object, in document order. -/
def decodeMembers : List (String × JSONValue) → FacebookProfile → Option GoError →
    FacebookProfile × Option GoError
  | [], p, saved => (p, saved)
  | (key, v) :: ms, p, saved =>
    match findField key with
    | none => decodeMembers ms p saved
    | some f =>
      let out := storeString p f v
      decodeMembers ms out.1 (saveError saved out.2)

/-- Storing a scanned document into `*profile`: the contents afterwards and
the error.  An object is stored member by member, `null` is a no-op, any
other value is a type error. -/
def unmarshalValue (v : JSONValue) (profile : FacebookProfile) :
    FacebookProfile × Option GoError :=
  match v with
  | .obj ms => decodeMembers ms profile none
  | .null => (profile, none)
  | v => (profile, some (typeError v.kind "dmv.FacebookProfile"))

/-- Models `json.Unmarshal(data, profile)` over a scanner for JSON texts: a text that
is not valid JSON is rejected before anything is stored. -/
def unmarshalWith (scan : String → Except GoError JSONValue) (data : String)
    (profile : FacebookProfile) : FacebookProfile × Option GoError :=
  match scan data with
  | .error e => (profile, some e)
  | .ok v => unmarshalValue v profile

/-- The scanned form of the two sample profile bodies; any other text is
rejected here. -/
def sampleScan (data : String) : Except GoError JSONValue :=
  if data = "\x7b\"id\":\"123\",\"email\":\"a@b.com\"\x7d" then
    .ok (.obj [("id", .str "123"), ("email", .str "a@b.com")])
  else if data = "\x7b\"id\":\"123\",\"email\":5\x7d" then
    .ok (.obj [("id", .str "123"), ("email", .number "5")])
  else .error "invalid character 'o' in literal null (expecting 'u')"

/-- The keys of an object, in document order. -/
def keys (ms : List (String × JSONValue)) : List String := ms.map Prod.fst

/-! ## A scripted world, for concrete runs -/

/-- A world in which every call has a fixed, scripted outcome.  The transport
is the options record itself and a response is its body. -/
def scripted (parse : Except GoError URL) (ex : Except GoError Token)
    (gt : Except GoError String) (rd : Option GoError)
    (um : FacebookProfile × Option GoError) : World OAuth2Options String where
  makeTransport := fun opts _ => opts
  configRedirectURL := fun t => t.RedirectURL
  authCodeURL := fun t state =>
    t.AuthURL ++ "?client_id=" ++ t.ClientID ++ "&redirect_uri=" ++ t.RedirectURL ++
      "&state=" ++ state
  urlParse := fun _ => parse
  exchange := fun _ _ => ex
  clientGet := fun _ _ _ => gt
  readAll := fun body => (body, rd)
  jsonUnmarshal := fun _ _ => um

/-- Sample options, as in the usage example of facebook.go:56-60. -/
def sampleOpts : OAuth2Options :=
  AuthFacebook
    { ClientID := "oauth_id", ClientSecret := "oauth_secret",
      RedirectURL := "http://localhost:3000/auth/callback/facebook" }

/-- The parsed form of the sample redirect URL. -/
def sampleURL : URL :=
  { Scheme := "http", Host := "localhost:3000", Path := "/auth/callback/facebook" }

/-- A request for `path` carrying `code=c0de`. -/
def requestAt (path : String) : Request where
  URL := { Path := path }
  FormValue := fun k => if k = "code" then "c0de" else ""

/-- A sample token. -/
def tokenAR : Token := { AccessToken := "A", RefreshToken := "R" }

/-- The callback request of the sample application. -/
def callbackRequest : Request := requestAt "/auth/callback/facebook"

/-- The login request of the sample application. -/
def loginRequest : Request := requestAt "/auth/facebook"

/-- Every step succeeds. -/
def worldAllSucceed : World OAuth2Options String :=
  scripted (.ok sampleURL) (.ok tokenAR) (.ok "\x7b\"id\":\"123\",\"email\":\"a@b.com\"\x7d") none
    ({ ID := "123", Email := "a@b.com" }, none)

/-- The token endpoint answers with an error. -/
def worldExchangeFails : World OAuth2Options String :=
  scripted (.ok sampleURL) (.error "OAuthError: updateToken: 400 Bad Request") (.ok "") none
    ({}, none)

/-- The profile GET fails. -/
def worldGetFails : World OAuth2Options String :=
  scripted (.ok sampleURL) (.ok tokenAR) (.error "Get https://graph.facebook.com/me: EOF") none
    ({}, none)

/-- Reading the response body fails. -/
def worldReadFails : World OAuth2Options String :=
  scripted (.ok sampleURL) (.ok tokenAR) (.ok "\x7b\"id\":") (some "unexpected EOF") ({}, none)

/-- The profile endpoint answers `not-json`. -/
def worldNotJSON : World OAuth2Options String :=
  scripted (.ok sampleURL) (.ok tokenAR) (.ok "not-json") none
    ({}, some "invalid character 'o' in literal null (expecting 'u')")

/-- The decoder stores `id` and then fails on a later member. -/
def worldTypeError : World OAuth2Options String :=
  scripted (.ok sampleURL) (.ok tokenAR) (.ok "\x7b\"id\":\"123\",\"email\":5\x7d") none
    ({ ID := "123" }, some "json: cannot unmarshal number into Go value of type string")

/-- Options whose redirect URL does not parse: `url.Parse(":")` fails. -/
def unparsableOpts : OAuth2Options :=
  AuthFacebook { ClientID := "oauth_id", ClientSecret := "oauth_secret", RedirectURL := ":" }

/-- Parsing the redirect URL fails; the token endpoint answers with an error. -/
def worldParseFails : World OAuth2Options String :=
  scripted (.error "parse \":\": missing protocol scheme")
    (.error "OAuthError: updateToken: 400 Bad Request") (.ok "") none ({}, none)

/-! ## Traces of the handler, case by case -/

section Traces

variable {T R : Type}

theorem handler_redirect (W : World T R) (opts : OAuth2Options) (r : Request)
    (hpath : r.URL.Path ≠ cbPath W (W.makeTransport opts r)) :
    handler W opts r =
      [Event.redirect (W.authCodeURL (W.makeTransport opts r) "") StatusFound] := by
  unfold handler
  simp [hpath]

theorem handler_exchange_error (W : World T R) (opts : OAuth2Options) (r : Request)
    (e : GoError)
    (hpath : r.URL.Path = cbPath W (W.makeTransport opts r))
    (hex : W.exchange (W.makeTransport opts r) (r.FormValue "code") = .error e) :
    handler W opts r =
      [Event.exchange (r.FormValue "code"), Event.map { Errors := [e] }] := by
  unfold handler callback
  simp [hpath, hex]

theorem handler_get_error (W : World T R) (opts : OAuth2Options) (r : Request)
    (tk : Token) (e : GoError)
    (hpath : r.URL.Path = cbPath W (W.makeTransport opts r))
    (hex : W.exchange (W.makeTransport opts r) (r.FormValue "code") = .ok tk)
    (hget : W.clientGet (W.makeTransport opts r) tk fbProfileURL = .error e) :
    handler W opts r =
      [Event.exchange (r.FormValue "code"), Event.get fbProfileURL,
       Event.map { Errors := [e], AccessToken := tk.AccessToken,
                   RefreshToken := tk.RefreshToken }] := by
  unfold handler callback
  simp [hpath, hex, hget]

theorem handler_read_error (W : World T R) (opts : OAuth2Options) (r : Request)
    (tk : Token) (resp : R) (data : String) (e : GoError)
    (hpath : r.URL.Path = cbPath W (W.makeTransport opts r))
    (hex : W.exchange (W.makeTransport opts r) (r.FormValue "code") = .ok tk)
    (hget : W.clientGet (W.makeTransport opts r) tk fbProfileURL = .ok resp)
    (hread : W.readAll resp = (data, some e)) :
    handler W opts r =
      [Event.exchange (r.FormValue "code"), Event.get fbProfileURL, Event.readAll,
       Event.close,
       Event.map { Errors := [e], AccessToken := tk.AccessToken,
                   RefreshToken := tk.RefreshToken }] := by
  unfold handler callback readProfile
  simp [hpath, hex, hget, hread]

theorem handler_decode_error (W : World T R) (opts : OAuth2Options) (r : Request)
    (tk : Token) (resp : R) (data : String) (p : FacebookProfile) (e : GoError)
    (hpath : r.URL.Path = cbPath W (W.makeTransport opts r))
    (hex : W.exchange (W.makeTransport opts r) (r.FormValue "code") = .ok tk)
    (hget : W.clientGet (W.makeTransport opts r) tk fbProfileURL = .ok resp)
    (hread : W.readAll resp = (data, none))
    (hdec : W.jsonUnmarshal data {} = (p, some e)) :
    handler W opts r =
      [Event.exchange (r.FormValue "code"), Event.get fbProfileURL, Event.readAll,
       Event.unmarshal data, Event.close,
       Event.map { Errors := [e], AccessToken := tk.AccessToken,
                   RefreshToken := tk.RefreshToken }] := by
  unfold handler callback readProfile
  simp [hpath, hex, hget, hread, hdec]

theorem handler_success (W : World T R) (opts : OAuth2Options) (r : Request)
    (tk : Token) (resp : R) (data : String) (p : FacebookProfile)
    (hpath : r.URL.Path = cbPath W (W.makeTransport opts r))
    (hex : W.exchange (W.makeTransport opts r) (r.FormValue "code") = .ok tk)
    (hget : W.clientGet (W.makeTransport opts r) tk fbProfileURL = .ok resp)
    (hread : W.readAll resp = (data, none))
    (hdec : W.jsonUnmarshal data {} = (p, none)) :
    handler W opts r =
      [Event.exchange (r.FormValue "code"), Event.get fbProfileURL, Event.readAll,
       Event.unmarshal data, Event.close,
       Event.map { AccessToken := tk.AccessToken, RefreshToken := tk.RefreshToken,
                   Profile := p }] := by
  unfold handler callback readProfile
  simp [hpath, hex, hget, hread, hdec]

end Traces

section Shape

variable {T R : Type}

/-- On the callback path the trace is one of five, according to the first step
that fails. -/
theorem handler_callback_cases (W : World T R) (opts : OAuth2Options) (r : Request)
    (hpath : r.URL.Path = cbPath W (W.makeTransport opts r)) :
    (∃ e, W.exchange (W.makeTransport opts r) (r.FormValue "code") = .error e ∧
      handler W opts r =
        [Event.exchange (r.FormValue "code"), Event.map { Errors := [e] }]) ∨
    (∃ tk e, W.exchange (W.makeTransport opts r) (r.FormValue "code") = .ok tk ∧
      W.clientGet (W.makeTransport opts r) tk fbProfileURL = .error e ∧
      handler W opts r =
        [Event.exchange (r.FormValue "code"), Event.get fbProfileURL,
         Event.map { Errors := [e], AccessToken := tk.AccessToken,
                     RefreshToken := tk.RefreshToken }]) ∨
    (∃ tk resp data e, W.exchange (W.makeTransport opts r) (r.FormValue "code") = .ok tk ∧
      W.clientGet (W.makeTransport opts r) tk fbProfileURL = .ok resp ∧
      W.readAll resp = (data, some e) ∧
      handler W opts r =
        [Event.exchange (r.FormValue "code"), Event.get fbProfileURL, Event.readAll,
         Event.close,
         Event.map { Errors := [e], AccessToken := tk.AccessToken,
                     RefreshToken := tk.RefreshToken }]) ∨
    (∃ tk resp data p e, W.exchange (W.makeTransport opts r) (r.FormValue "code") = .ok tk ∧
      W.clientGet (W.makeTransport opts r) tk fbProfileURL = .ok resp ∧
      W.readAll resp = (data, none) ∧ W.jsonUnmarshal data {} = (p, some e) ∧
      handler W opts r =
        [Event.exchange (r.FormValue "code"), Event.get fbProfileURL, Event.readAll,
         Event.unmarshal data, Event.close,
         Event.map { Errors := [e], AccessToken := tk.AccessToken,
                     RefreshToken := tk.RefreshToken }]) ∨
    (∃ tk resp data p, W.exchange (W.makeTransport opts r) (r.FormValue "code") = .ok tk ∧
      W.clientGet (W.makeTransport opts r) tk fbProfileURL = .ok resp ∧
      W.readAll resp = (data, none) ∧ W.jsonUnmarshal data {} = (p, none) ∧
      handler W opts r =
        [Event.exchange (r.FormValue "code"), Event.get fbProfileURL, Event.readAll,
         Event.unmarshal data, Event.close,
         Event.map { AccessToken := tk.AccessToken, RefreshToken := tk.RefreshToken,
                     Profile := p }]) := by
  rcases hex : W.exchange (W.makeTransport opts r) (r.FormValue "code") with e | tk
  · exact Or.inl ⟨e, rfl, handler_exchange_error W opts r e hpath hex⟩
  · rcases hget : W.clientGet (W.makeTransport opts r) tk fbProfileURL with e | resp
    · exact Or.inr (Or.inl ⟨tk, e, rfl, hget, handler_get_error W opts r tk e hpath hex hget⟩)
    · rcases hread : W.readAll resp with ⟨data, _ | e⟩
      · rcases hdec : W.jsonUnmarshal data {} with ⟨p, _ | e⟩
        · exact Or.inr (Or.inr (Or.inr (Or.inr ⟨tk, resp, data, p, rfl, hget, hread, hdec,
            handler_success W opts r tk resp data p hpath hex hget hread hdec⟩)))
        · exact Or.inr (Or.inr (Or.inr (Or.inl ⟨tk, resp, data, p, e, rfl, hget, hread, hdec,
            handler_decode_error W opts r tk resp data p e hpath hex hget hread hdec⟩)))
      · exact Or.inr (Or.inr (Or.inl ⟨tk, resp, data, e, rfl, hget, hread,
          handler_read_error W opts r tk resp data e hpath hex hget hread⟩))

/-- On the callback path: one mapped value, no redirect, one exchange. -/
theorem handler_callback_counts (W : World T R) (opts : OAuth2Options) (r : Request)
    (hpath : r.URL.Path = cbPath W (W.makeTransport opts r)) :
    (mapped (handler W opts r)).length = 1 ∧ redirects (handler W opts r) = [] ∧
      exchangeCount (handler W opts r) = 1 := by
  rcases handler_callback_cases W opts r hpath with
    ⟨e, -, h⟩ | ⟨tk, e, -, -, h⟩ | ⟨tk, resp, data, e, -, -, -, h⟩ |
    ⟨tk, resp, data, p, e, -, -, -, -, h⟩ | ⟨tk, resp, data, p, -, -, -, -, h⟩ <;>
  · rw [h]
    simp [mapped, redirects, exchangeCount]

end Shape

/-! ## The handler: claims -/

section Claims

variable {T R : Type}

/-- C1: on a request whose path equals the callback path, whatever the outcomes
of the exchange, the profile GET, the body read and the JSON decode, the
handler maps exactly one `Facebook` value into the context and writes no
redirect. -/
theorem callback_maps_exactly_once (W : World T R) (opts : OAuth2Options) (r : Request)
    (hpath : r.URL.Path = cbPath W (W.makeTransport opts r)) :
    (mapped (handler W opts r)).length = 1 ∧ redirects (handler W opts r) = [] :=
  ⟨(handler_callback_counts W opts r hpath).1, (handler_callback_counts W opts r hpath).2.1⟩

theorem callback_maps_exactly_once_witness :
    callbackRequest.URL.Path
        = cbPath worldNotJSON (worldNotJSON.makeTransport sampleOpts callbackRequest) ∧
      (mapped (handler worldNotJSON sampleOpts callbackRequest)).length = 1 ∧
      redirects (handler worldNotJSON sampleOpts callbackRequest) = [] :=
  ⟨by decide, callback_maps_exactly_once worldNotJSON sampleOpts callbackRequest (by decide)⟩

/-- C2: on a request whose path differs from the callback path, the handler
writes one redirect, with status 302, to `AuthCodeURL("")` and does nothing
else: nothing is mapped, no exchange and no profile GET are made.  The
callback path is the path of the parsed redirect URL whenever that URL
parses. -/
theorem other_path_redirects (W : World T R) (opts : OAuth2Options) (r : Request)
    (hpath : r.URL.Path ≠ cbPath W (W.makeTransport opts r)) :
    handler W opts r = [Event.redirect (W.authCodeURL (W.makeTransport opts r) "") 302] ∧
      redirects (handler W opts r) = [(W.authCodeURL (W.makeTransport opts r) "", 302)] ∧
      mapped (handler W opts r) = [] ∧
      exchangeCount (handler W opts r) = 0 ∧
      getCount (handler W opts r) = 0 ∧
      (∀ u, W.urlParse (W.configRedirectURL (W.makeTransport opts r)) = .ok u →
        cbPath W (W.makeTransport opts r) = u.Path) := by
  rw [handler_redirect W opts r hpath]
  refine ⟨rfl, rfl, rfl, rfl, rfl, ?_⟩
  intro u hu
  simp [cbPath, hu]

theorem other_path_redirects_witness :
    handler worldAllSucceed sampleOpts loginRequest =
        [Event.redirect
          (worldAllSucceed.authCodeURL (worldAllSucceed.makeTransport sampleOpts loginRequest) "")
          302] ∧
      redirects (handler worldAllSucceed sampleOpts loginRequest) =
        [(worldAllSucceed.authCodeURL (worldAllSucceed.makeTransport sampleOpts loginRequest) "",
          302)] ∧
      mapped (handler worldAllSucceed sampleOpts loginRequest) = [] ∧
      exchangeCount (handler worldAllSucceed sampleOpts loginRequest) = 0 ∧
      getCount (handler worldAllSucceed sampleOpts loginRequest) = 0 ∧
      (∀ u, worldAllSucceed.urlParse (worldAllSucceed.configRedirectURL
          (worldAllSucceed.makeTransport sampleOpts loginRequest)) = .ok u →
        cbPath worldAllSucceed (worldAllSucceed.makeTransport sampleOpts loginRequest) = u.Path) :=
  other_path_redirects worldAllSucceed sampleOpts loginRequest (by decide)

/-- C3: on the callback path, when the exchange returns error `e`, the mapped
value has `Errors = [e]`, empty tokens and the zero profile, and no profile
GET is made. -/
theorem exchange_error_result (W : World T R) (opts : OAuth2Options) (r : Request)
    (e : GoError)
    (hpath : r.URL.Path = cbPath W (W.makeTransport opts r))
    (hex : W.exchange (W.makeTransport opts r) (r.FormValue "code") = .error e) :
    mapped (handler W opts r) =
        [{ Errors := [e], AccessToken := "", RefreshToken := "", Profile := {} }] ∧
      getCount (handler W opts r) = 0 := by
  rw [handler_exchange_error W opts r e hpath hex]
  exact ⟨rfl, rfl⟩

theorem exchange_error_result_witness :
    mapped (handler worldExchangeFails sampleOpts callbackRequest) =
        [{ Errors := ["OAuthError: updateToken: 400 Bad Request"], AccessToken := "",
           RefreshToken := "", Profile := {} }] ∧
      getCount (handler worldExchangeFails sampleOpts callbackRequest) = 0 :=
  exchange_error_result worldExchangeFails sampleOpts callbackRequest
    "OAuthError: updateToken: 400 Bad Request" (by decide) rfl

/-- C4: on the callback path, when the exchange returns token `tk`, the GET
and the read succeed and the JSON decode fails with `e`, the mapped value has
`Errors = [e]`, the tokens of `tk` and the zero profile, whatever the decoder
had already stored into its target. -/
theorem decode_error_result (W : World T R) (opts : OAuth2Options) (r : Request)
    (tk : Token) (resp : R) (data : String) (p : FacebookProfile) (e : GoError)
    (hpath : r.URL.Path = cbPath W (W.makeTransport opts r))
    (hex : W.exchange (W.makeTransport opts r) (r.FormValue "code") = .ok tk)
    (hget : W.clientGet (W.makeTransport opts r) tk fbProfileURL = .ok resp)
    (hread : W.readAll resp = (data, none))
    (hdec : W.jsonUnmarshal data {} = (p, some e)) :
    mapped (handler W opts r) =
      [{ Errors := [e], AccessToken := tk.AccessToken, RefreshToken := tk.RefreshToken,
         Profile := {} }] := by
  rw [handler_decode_error W opts r tk resp data p e hpath hex hget hread hdec]
  rfl

theorem decode_error_result_witness :
    mapped (handler worldTypeError sampleOpts callbackRequest) =
      [{ Errors := ["json: cannot unmarshal number into Go value of type string"],
         AccessToken := tokenAR.AccessToken, RefreshToken := tokenAR.RefreshToken,
         Profile := {} }] :=
  decode_error_result worldTypeError sampleOpts callbackRequest tokenAR
    "\x7b\"id\":\"123\",\"email\":5\x7d" "\x7b\"id\":\"123\",\"email\":5\x7d"
    { ID := "123" } "json: cannot unmarshal number into Go value of type string"
    (by decide) rfl rfl rfl rfl

/-- C5: on the callback path, when the exchange of the request's `code` returns
token `tk` and the GET, the read and the decode succeed with profile `p`, the
mapped value has the tokens of `tk`, `Profile = p` and no errors. -/
theorem success_result (W : World T R) (opts : OAuth2Options) (r : Request)
    (tk : Token) (resp : R) (data : String) (p : FacebookProfile)
    (hpath : r.URL.Path = cbPath W (W.makeTransport opts r))
    (hex : W.exchange (W.makeTransport opts r) (r.FormValue "code") = .ok tk)
    (hget : W.clientGet (W.makeTransport opts r) tk fbProfileURL = .ok resp)
    (hread : W.readAll resp = (data, none))
    (hdec : W.jsonUnmarshal data {} = (p, none)) :
    mapped (handler W opts r) =
      [{ Errors := [], AccessToken := tk.AccessToken, RefreshToken := tk.RefreshToken,
         Profile := p }] := by
  rw [handler_success W opts r tk resp data p hpath hex hget hread hdec]
  rfl

theorem success_result_witness :
    mapped (handler worldAllSucceed sampleOpts callbackRequest) =
      [{ Errors := [], AccessToken := "A", RefreshToken := "R",
         Profile := { ID := "123", Email := "a@b.com" } }] :=
  success_result worldAllSucceed sampleOpts callbackRequest tokenAR
    "\x7b\"id\":\"123\",\"email\":\"a@b.com\"\x7d"
    "\x7b\"id\":\"123\",\"email\":\"a@b.com\"\x7d"
    { ID := "123", Email := "a@b.com" }
    (by decide) rfl rfl rfl rfl

/-- C7, as stated, fails: with a redirect URL that does not parse, a request
whose path is empty is handled as the callback: the exchange is made, a
`Facebook` value is mapped and no redirect is written. -/
theorem unparsable_redirect_empty_path_is_callback :
    worldParseFails.urlParse
        (worldParseFails.configRedirectURL
          (worldParseFails.makeTransport unparsableOpts (requestAt "")))
        = .error "parse \":\": missing protocol scheme" ∧
      handler worldParseFails unparsableOpts (requestAt "") =
        [Event.exchange "c0de",
         Event.map { Errors := ["OAuthError: updateToken: 400 Bad Request"] }] ∧
      redirects (handler worldParseFails unparsableOpts (requestAt "")) = [] ∧
      exchangeCount (handler worldParseFails unparsableOpts (requestAt "")) = 1 ∧
      (mapped (handler worldParseFails unparsableOpts (requestAt ""))).length = 1 := by
  refine ⟨rfl, ?_, ?_, ?_, ?_⟩ <;> decide

/-- C7, amended: when the redirect URL does not parse, the callback path is the
empty string; every request with a non-empty path takes the redirect branch
(one redirect, nothing mapped, no exchange), and a request with the empty path
is handled as the callback (one value mapped, no redirect, one exchange). -/
theorem unparsable_redirect_callback_path_empty (W : World T R) (opts : OAuth2Options)
    (r : Request) (e : GoError)
    (hparse : W.urlParse (W.configRedirectURL (W.makeTransport opts r)) = .error e) :
    cbPath W (W.makeTransport opts r) = "" ∧
      (r.URL.Path ≠ "" →
        handler W opts r = [Event.redirect (W.authCodeURL (W.makeTransport opts r) "") 302] ∧
        mapped (handler W opts r) = [] ∧ exchangeCount (handler W opts r) = 0) ∧
      (r.URL.Path = "" →
        (mapped (handler W opts r)).length = 1 ∧ redirects (handler W opts r) = [] ∧
        exchangeCount (handler W opts r) = 1) := by
  have hcb : cbPath W (W.makeTransport opts r) = "" := by simp [cbPath, hparse]
  refine ⟨hcb, ?_, ?_⟩
  · intro hne
    rw [handler_redirect W opts r (by rw [hcb]; exact hne)]
    exact ⟨rfl, rfl, rfl⟩
  · intro heq
    exact handler_callback_counts W opts r (by rw [hcb]; exact heq)

theorem unparsable_redirect_callback_path_empty_witness :
    cbPath worldParseFails (worldParseFails.makeTransport unparsableOpts loginRequest) = "" ∧
      (loginRequest.URL.Path ≠ "" →
        handler worldParseFails unparsableOpts loginRequest =
          [Event.redirect
            (worldParseFails.authCodeURL
              (worldParseFails.makeTransport unparsableOpts loginRequest) "") 302] ∧
        mapped (handler worldParseFails unparsableOpts loginRequest) = [] ∧
        exchangeCount (handler worldParseFails unparsableOpts loginRequest) = 0) ∧
      (loginRequest.URL.Path = "" →
        (mapped (handler worldParseFails unparsableOpts loginRequest)).length = 1 ∧
        redirects (handler worldParseFails unparsableOpts loginRequest) = [] ∧
        exchangeCount (handler worldParseFails unparsableOpts loginRequest) = 1) :=
  unparsable_redirect_callback_path_empty worldParseFails unparsableOpts loginRequest
    "parse \":\": missing protocol scheme" rfl

/-- C8: on the callback path, when the exchange returns token `tk` and then
either the profile GET fails with `e` or the body read fails with `e`, the
mapped value has `Errors = [e]`, the tokens of `tk` and the zero profile, and
no JSON decode is made. -/
theorem fetch_error_result (W : World T R) (opts : OAuth2Options) (r : Request)
    (tk : Token) (e : GoError)
    (hpath : r.URL.Path = cbPath W (W.makeTransport opts r))
    (hex : W.exchange (W.makeTransport opts r) (r.FormValue "code") = .ok tk)
    (hfail : W.clientGet (W.makeTransport opts r) tk fbProfileURL = .error e ∨
      ∃ resp data, W.clientGet (W.makeTransport opts r) tk fbProfileURL = .ok resp ∧
        W.readAll resp = (data, some e)) :
    mapped (handler W opts r) =
        [{ Errors := [e], AccessToken := tk.AccessToken, RefreshToken := tk.RefreshToken,
           Profile := {} }] ∧
      unmarshalCount (handler W opts r) = 0 := by
  rcases hfail with hget | ⟨resp, data, hget, hread⟩
  · rw [handler_get_error W opts r tk e hpath hex hget]
    exact ⟨rfl, rfl⟩
  · rw [handler_read_error W opts r tk resp data e hpath hex hget hread]
    exact ⟨rfl, rfl⟩

theorem fetch_error_result_witness :
    (mapped (handler worldGetFails sampleOpts callbackRequest) =
        [{ Errors := ["Get https://graph.facebook.com/me: EOF"], AccessToken := "A",
           RefreshToken := "R", Profile := {} }] ∧
      unmarshalCount (handler worldGetFails sampleOpts callbackRequest) = 0) ∧
    (mapped (handler worldReadFails sampleOpts callbackRequest) =
        [{ Errors := ["unexpected EOF"], AccessToken := "A", RefreshToken := "R",
           Profile := {} }] ∧
      unmarshalCount (handler worldReadFails sampleOpts callbackRequest) = 0) :=
  ⟨fetch_error_result worldGetFails sampleOpts callbackRequest tokenAR
      "Get https://graph.facebook.com/me: EOF" (by decide) rfl (Or.inl rfl),
   fetch_error_result worldReadFails sampleOpts callbackRequest tokenAR
      "unexpected EOF" (by decide) rfl (Or.inr ⟨"\x7b\"id\":", "\x7b\"id\":", rfl, rfl⟩)⟩

/-- C9: on the callback path, for every combination of outcomes of the four
steps, exactly one value is mapped and its `Errors` has length at most 1; it
is empty exactly when the exchange, the GET, the read and the decode all
succeed, and otherwise it is the one-element list holding the error of the
first step that failed. -/
theorem errors_at_most_one (W : World T R) (opts : OAuth2Options) (r : Request)
    (hpath : r.URL.Path = cbPath W (W.makeTransport opts r)) :
    ∃ fb, mapped (handler W opts r) = [fb] ∧ fb.Errors.length ≤ 1 ∧
      (fb.Errors = [] ↔
        ∃ tk resp data p,
          W.exchange (W.makeTransport opts r) (r.FormValue "code") = .ok tk ∧
          W.clientGet (W.makeTransport opts r) tk fbProfileURL = .ok resp ∧
          W.readAll resp = (data, none) ∧ W.jsonUnmarshal data {} = (p, none)) ∧
      (∀ e, W.exchange (W.makeTransport opts r) (r.FormValue "code") = .error e →
        fb.Errors = [e]) ∧
      (∀ tk e, W.exchange (W.makeTransport opts r) (r.FormValue "code") = .ok tk →
        W.clientGet (W.makeTransport opts r) tk fbProfileURL = .error e →
        fb.Errors = [e]) ∧
      (∀ tk resp data e, W.exchange (W.makeTransport opts r) (r.FormValue "code") = .ok tk →
        W.clientGet (W.makeTransport opts r) tk fbProfileURL = .ok resp →
        W.readAll resp = (data, some e) →
        fb.Errors = [e]) ∧
      (∀ tk resp data p e, W.exchange (W.makeTransport opts r) (r.FormValue "code") = .ok tk →
        W.clientGet (W.makeTransport opts r) tk fbProfileURL = .ok resp →
        W.readAll resp = (data, none) → W.jsonUnmarshal data {} = (p, some e) →
        fb.Errors = [e]) := by
  rcases handler_callback_cases W opts r hpath with
    ⟨e, hex, h⟩ | ⟨tk, e, hex, hget, h⟩ | ⟨tk, resp, data, e, hex, hget, hread, h⟩ |
    ⟨tk, resp, data, p, e, hex, hget, hread, hdec, h⟩ |
    ⟨tk, resp, data, p, hex, hget, hread, hdec, h⟩
  · refine ⟨_, by rw [h]; rfl, by simp, ?_, ?_, ?_, ?_, ?_⟩
    · simp [hex]
    · intro e2 h2; rw [hex] at h2; cases h2; rfl
    · intro tk2 e2 h2; rw [hex] at h2; cases h2
    · intro tk2 resp2 data2 e2 h2; rw [hex] at h2; cases h2
    · intro tk2 resp2 data2 p2 e2 h2; rw [hex] at h2; cases h2
  · refine ⟨_, by rw [h]; rfl, by simp, ?_, ?_, ?_, ?_, ?_⟩
    · simp only [List.cons_ne_nil, false_iff]
      rintro ⟨tk2, resp2, data2, p2, h2, h3, -, -⟩
      rw [hex] at h2; cases h2; rw [hget] at h3; cases h3
    · intro e2 h2; rw [hex] at h2; cases h2
    · intro tk2 e2 h2 h3; rw [hex] at h2; cases h2; rw [hget] at h3; cases h3; rfl
    · intro tk2 resp2 data2 e2 h2 h3; rw [hex] at h2; cases h2; rw [hget] at h3; cases h3
    · intro tk2 resp2 data2 p2 e2 h2 h3; rw [hex] at h2; cases h2; rw [hget] at h3; cases h3
  · refine ⟨_, by rw [h]; rfl, by simp, ?_, ?_, ?_, ?_, ?_⟩
    · simp only [List.cons_ne_nil, false_iff]
      rintro ⟨tk2, resp2, data2, p2, h2, h3, h4, -⟩
      rw [hex] at h2; cases h2; rw [hget] at h3; cases h3; rw [hread] at h4; cases h4
    · intro e2 h2; rw [hex] at h2; cases h2
    · intro tk2 e2 h2 h3; rw [hex] at h2; cases h2; rw [hget] at h3; cases h3
    · intro tk2 resp2 data2 e2 h2 h3 h4
      rw [hex] at h2; cases h2; rw [hget] at h3; cases h3; rw [hread] at h4; cases h4; rfl
    · intro tk2 resp2 data2 p2 e2 h2 h3 h4
      rw [hex] at h2; cases h2; rw [hget] at h3; cases h3; rw [hread] at h4; cases h4
  · refine ⟨_, by rw [h]; rfl, by simp, ?_, ?_, ?_, ?_, ?_⟩
    · simp only [List.cons_ne_nil, false_iff]
      rintro ⟨tk2, resp2, data2, p2, h2, h3, h4, h5⟩
      rw [hex] at h2; cases h2; rw [hget] at h3; cases h3; rw [hread] at h4; cases h4
      rw [hdec] at h5; cases h5
    · intro e2 h2; rw [hex] at h2; cases h2
    · intro tk2 e2 h2 h3; rw [hex] at h2; cases h2; rw [hget] at h3; cases h3
    · intro tk2 resp2 data2 e2 h2 h3 h4
      rw [hex] at h2; cases h2; rw [hget] at h3; cases h3; rw [hread] at h4; cases h4
    · intro tk2 resp2 data2 p2 e2 h2 h3 h4 h5
      rw [hex] at h2; cases h2; rw [hget] at h3; cases h3; rw [hread] at h4; cases h4
      rw [hdec] at h5; cases h5; rfl
  · refine ⟨_, by rw [h]; rfl, by simp, ?_, ?_, ?_, ?_, ?_⟩
    · simp only [true_iff]
      exact ⟨tk, resp, data, p, hex, hget, hread, hdec⟩
    · intro e2 h2; rw [hex] at h2; cases h2
    · intro tk2 e2 h2 h3; rw [hex] at h2; cases h2; rw [hget] at h3; cases h3
    · intro tk2 resp2 data2 e2 h2 h3 h4
      rw [hex] at h2; cases h2; rw [hget] at h3; cases h3; rw [hread] at h4; cases h4
    · intro tk2 resp2 data2 p2 e2 h2 h3 h4 h5
      rw [hex] at h2; cases h2; rw [hget] at h3; cases h3; rw [hread] at h4; cases h4
      rw [hdec] at h5; cases h5

theorem errors_at_most_one_witness :
    ∃ fb, mapped (handler worldReadFails sampleOpts callbackRequest) = [fb] ∧
      fb.Errors.length ≤ 1 ∧
      (fb.Errors = [] ↔
        ∃ tk resp data p,
          worldReadFails.exchange (worldReadFails.makeTransport sampleOpts callbackRequest)
            (callbackRequest.FormValue "code") = .ok tk ∧
          worldReadFails.clientGet (worldReadFails.makeTransport sampleOpts callbackRequest)
            tk fbProfileURL = .ok resp ∧
          worldReadFails.readAll resp = (data, none) ∧
          worldReadFails.jsonUnmarshal data {} = (p, none)) ∧
      (∀ e, worldReadFails.exchange (worldReadFails.makeTransport sampleOpts callbackRequest)
          (callbackRequest.FormValue "code") = .error e →
        fb.Errors = [e]) ∧
      (∀ tk e, worldReadFails.exchange (worldReadFails.makeTransport sampleOpts callbackRequest)
          (callbackRequest.FormValue "code") = .ok tk →
        worldReadFails.clientGet (worldReadFails.makeTransport sampleOpts callbackRequest)
          tk fbProfileURL = .error e →
        fb.Errors = [e]) ∧
      (∀ tk resp data e,
        worldReadFails.exchange (worldReadFails.makeTransport sampleOpts callbackRequest)
          (callbackRequest.FormValue "code") = .ok tk →
        worldReadFails.clientGet (worldReadFails.makeTransport sampleOpts callbackRequest)
          tk fbProfileURL = .ok resp →
        worldReadFails.readAll resp = (data, some e) →
        fb.Errors = [e]) ∧
      (∀ tk resp data p e,
        worldReadFails.exchange (worldReadFails.makeTransport sampleOpts callbackRequest)
          (callbackRequest.FormValue "code") = .ok tk →
        worldReadFails.clientGet (worldReadFails.makeTransport sampleOpts callbackRequest)
          tk fbProfileURL = .ok resp →
        worldReadFails.readAll resp = (data, none) →
        worldReadFails.jsonUnmarshal data {} = (p, some e) →
        fb.Errors = [e]) :=
  errors_at_most_one worldReadFails sampleOpts callbackRequest (by decide)

/-- C10: `AuthFacebook(opts)` overwrites `opts.AuthURL` and `opts.TokenURL` with
the Facebook endpoints whatever they held, leaves `ClientID`, `ClientSecret`
and `RedirectURL` unchanged, and a second call changes nothing more. -/
theorem AuthFacebook_overwrites_endpoints (opts : OAuth2Options) :
    (AuthFacebook opts).AuthURL = "https://www.facebook.com/dialog/oauth" ∧
      (AuthFacebook opts).TokenURL = "https://graph.facebook.com/oauth/access_token" ∧
      (AuthFacebook opts).ClientID = opts.ClientID ∧
      (AuthFacebook opts).ClientSecret = opts.ClientSecret ∧
      (AuthFacebook opts).RedirectURL = opts.RedirectURL ∧
      AuthFacebook (AuthFacebook opts) = AuthFacebook opts :=
  ⟨rfl, rfl, rfl, rfl, rfl, rfl⟩

end Claims

/-! ## Decoding the profile -/

theorem findField_tag (f : Field) : findField f.tag = some f := by
  cases f <;> decide

theorem FacebookProfile.get_set_same (p : FacebookProfile) (f : Field) (v : String) :
    (p.set f v).get f = v := by
  cases f <;> rfl

theorem FacebookProfile.get_set_other (p : FacebookProfile) {f g : Field} (v : String)
    (h : g ≠ f) : (p.set g v).get f = p.get f := by
  cases f <;> cases g <;> first | rfl | exact absurd rfl h

/-- Members with tag keys and string values never raise an error. -/
theorem decodeMembers_no_error (ms : List (String × JSONValue))
    (hkeys : ∀ m ∈ ms, ∃ f : Field, m.1 = f.tag)
    (hvals : ∀ m ∈ ms, ∃ v, m.2 = JSONValue.str v) (p : FacebookProfile) :
    (decodeMembers ms p none).2 = none := by
  induction ms generalizing p with
  | nil => rfl
  | cons m ms ih =>
    obtain ⟨key, val⟩ := m
    obtain ⟨f, hf⟩ := hkeys (key, val) (List.mem_cons_self _ _)
    obtain ⟨v, hv⟩ := hvals (key, val) (List.mem_cons_self _ _)
    simp only at hf hv
    subst hf hv
    simp only [decodeMembers, findField_tag, storeString, saveError]
    exact ih (fun m hm => hkeys m (List.mem_cons_of_mem _ hm))
      (fun m hm => hvals m (List.mem_cons_of_mem _ hm)) _

/-- A field whose tag is not among the keys keeps its value. -/
theorem decodeMembers_absent (ms : List (String × JSONValue))
    (hkeys : ∀ m ∈ ms, ∃ f : Field, m.1 = f.tag) (f : Field)
    (habs : f.tag ∉ keys ms) (p : FacebookProfile) (saved : Option GoError) :
    (decodeMembers ms p saved).1.get f = p.get f := by
  induction ms generalizing p saved with
  | nil => rfl
  | cons m ms ih =>
    obtain ⟨key, val⟩ := m
    obtain ⟨g, hg⟩ := hkeys (key, val) (List.mem_cons_self _ _)
    simp only at hg
    subst hg
    have hne : g ≠ f := by
      intro h
      apply habs
      simp [keys, h]
    have htail : f.tag ∉ keys ms := by
      intro h
      apply habs
      simp only [keys, List.map_cons, List.mem_cons]
      exact Or.inr h
    simp only [decodeMembers, findField_tag]
    rw [ih (fun m hm => hkeys m (List.mem_cons_of_mem _ hm)) htail]
    cases val <;> simp [storeString, FacebookProfile.get_set_other _ _ hne]

/-- With distinct keys, a string member is found in its field afterwards. -/
theorem decodeMembers_present (ms : List (String × JSONValue))
    (hkeys : ∀ m ∈ ms, ∃ f : Field, m.1 = f.tag) (hnodup : (keys ms).Nodup)
    (f : Field) (v : String) (hmem : (f.tag, JSONValue.str v) ∈ ms)
    (p : FacebookProfile) (saved : Option GoError) :
    (decodeMembers ms p saved).1.get f = v := by
  induction ms generalizing p saved with
  | nil => cases hmem
  | cons m ms ih =>
    have hk := fun m hm => hkeys m (List.mem_cons_of_mem _ hm)
    simp only [keys, List.map_cons, List.nodup_cons] at hnodup
    rcases List.mem_cons.1 hmem with h | h
    · subst h
      simp only [decodeMembers, findField_tag, storeString]
      rw [decodeMembers_absent ms hk f hnodup.1]
      exact FacebookProfile.get_set_same _ _ _
    · obtain ⟨key, val⟩ := m
      obtain ⟨g, hg⟩ := hkeys (key, val) (List.mem_cons_self _ _)
      simp only at hg
      subst hg
      simp only [decodeMembers, findField_tag]
      exact ih hk hnodup.2 h _ _

/-- C6: decoding a response body that is a JSON object whose members all have
one of the nine tags as key and a string as value, into a zero
`FacebookProfile`, returns no error, leaves the field of every absent key
empty and, the keys being distinct, sets the field of every present key to its
value; the object with `id` = `123` and `email` = `a@b.com` gives `ID = "123"`,
`Email = "a@b.com"` and seven empty fields. -/
theorem decode_subset_of_keys (scan : String → Except GoError JSONValue) (data : String)
    (ms : List (String × JSONValue))
    (hscan : scan data = .ok (.obj ms))
    (hkeys : ∀ m ∈ ms, ∃ f : Field, m.1 = f.tag)
    (hvals : ∀ m ∈ ms, ∃ v, m.2 = JSONValue.str v) :
    (unmarshalWith scan data {}).2 = none ∧
      (∀ f : Field, f.tag ∉ keys ms → (unmarshalWith scan data {}).1.get f = "") ∧
      ((keys ms).Nodup → ∀ (f : Field) (v : String), (f.tag, JSONValue.str v) ∈ ms →
        (unmarshalWith scan data {}).1.get f = v) ∧
      (ms = [("id", .str "123"), ("email", .str "a@b.com")] →
        unmarshalWith scan data {} =
          ({ ID := "123", Username := "", Name := "", LastName := "", FirstName := "",
             MiddleName := "", Gender := "", Link := "", Email := "a@b.com" }, none)) := by
  have hun : unmarshalWith scan data {} = decodeMembers ms {} none := by
    simp [unmarshalWith, hscan, unmarshalValue]
  rw [hun]
  refine ⟨decodeMembers_no_error ms hkeys hvals _, ?_, ?_, ?_⟩
  · intro f habs
    rw [decodeMembers_absent ms hkeys f habs]
    cases f <;> rfl
  · intro hnodup f v hmem
    exact decodeMembers_present ms hkeys hnodup f v hmem _ _
  · intro hms
    subst hms
    decide

theorem decode_subset_of_keys_witness :
    unmarshalWith sampleScan "\x7b\"id\":\"123\",\"email\":\"a@b.com\"\x7d" {} =
      ({ ID := "123", Username := "", Name := "", LastName := "", FirstName := "",
         MiddleName := "", Gender := "", Link := "", Email := "a@b.com" }, none) :=
  (decode_subset_of_keys sampleScan "\x7b\"id\":\"123\",\"email\":\"a@b.com\"\x7d"
    [("id", .str "123"), ("email", .str "a@b.com")] rfl
    (by
      intro m hm
      simp only [List.mem_cons, List.mem_singleton, List.not_mem_nil, or_false] at hm
      rcases hm with rfl | rfl
      · exact ⟨Field.ID, rfl⟩
      · exact ⟨Field.Email, rfl⟩)
    (by
      intro m hm
      simp only [List.mem_cons, List.mem_singleton, List.not_mem_nil, or_false] at hm
      rcases hm with rfl | rfl
      · exact ⟨_, rfl⟩
      · exact ⟨_, rfl⟩)).2.2.2 rfl

end Dmv
